import Mathlib

/-!
Verification of glamkit-feincmstools against its specification.

Shallow embedding of the core logic of the repository:

* `create_content_types` (feincmstools/models.py): the region / content-type
  registrar merge.
* `Content._bases_that_are_content_types` (feincmstools/base.py): the
  class-hierarchy walker.
* `Content._render_template_paths`, `Content._find_render_template_path`,
  `Content._detect_template`, `Content.render`, `Content.__init__`
  (feincmstools/base.py): template path resolution and rendering dispatch.
* `ViewContent.render` (models.py): view-backed content rendering.
* `HierarchicalFeinCMSDocument.get_path` (feincmstools/base.py).

Python classes are modelled as a rose tree `CT` (a class has an app label, a
model name and a list of base classes); the abstract root `Content` marker is
the distinguished constructor `CT.content`.  The template backend is modelled
as the list of template paths that exist.  Module namespaces and the
registrar dictionary are association lists preserving insertion order.
-/

namespace Feincmstools

/-! ## Class hierarchy model

A Python class in the content-type hierarchy: either the abstract root
`Content` marker class itself, or a class with `_meta.app_label`,
`_meta.model_name` and its `__bases__` in declared order.  Classes that are
not subclasses of `Content` (e.g. `models.Model` mixins) are represented as
`cls` nodes none of whose ancestors reach `content`. -/
inductive CT : Type where
  | content : CT
  | cls (appLabel modelName : String) (bases : List CT) : CT

/-- `issubclass(k, Content)` of the Python runtime: `Content` is a subclass
of itself, and a class is a subclass of `Content` iff some base is. -/
def isContentSubclass : CT → Bool
  | .content => true
  | .cls _ _ bases => anyBase bases
where anyBase : List CT → Bool
  | [] => false
  | b :: bs => isContentSubclass b || anyBase bs

/-- Identity test `base == Content` against the root marker class. -/
def isRoot : CT → Bool
  | .content => true
  | .cls _ _ _ => false

/-- The filter condition of both loops in
`Content._bases_that_are_content_types`:
`issubclass(base, Content) and base != Content`. -/
def goodBase (b : CT) : Bool := isContentSubclass b && !isRoot b

/-- `Content._bases_that_are_content_types` (feincmstools/base.py:354-367):
first loop yields each direct base satisfying the filter, in declared base
order; second loop walks the bases again and, for each one satisfying the
filter, yields its recursive ancestor sequence. -/
def bases_that_are_content_types : CT → List CT
  | .content => []
  | .cls _ _ bases => bases.filter goodBase ++ secondLoop bases
where secondLoop : List CT → List CT
  | [] => []
  | b :: bs =>
      (if goodBase b then bases_that_are_content_types b else []) ++ secondLoop bs

/-- `klass._meta.app_label`.  The value for the abstract `Content` marker is
irrelevant: the walker never yields it. -/
def CT.appLabel : CT → String
  | .content => "feincmstools"
  | .cls a _ _ => a

/-- `klass._meta.model_name` (`module_name` on older Django). -/
def CT.modelName : CT → String
  | .content => "content"
  | .cls _ m _ => m

/-! ## Template path resolution -/

/-- The four candidate render path patterns of
`Content._render_template_paths` (feincmstools/base.py:392-403), instantiated
with the parameters of `Content._template_params` for a using class `klass`,
a defining base class `base` and a region key. -/
def renderCandidates (klass base : CT) (region : String) : List String :=
  let da := base.appLabel
  let dm := base.modelName
  let ua := klass.appLabel
  let um := klass.modelName
  [ "content_types/" ++ da ++ "/" ++ dm ++ "/" ++ ua ++ "_" ++ um ++ "_" ++ region ++ ".html"
  , "content_types/" ++ da ++ "/" ++ dm ++ "/" ++ um ++ "_" ++ region ++ ".html"
  , "content_types/" ++ da ++ "/" ++ dm ++ "/" ++ region ++ ".html"
  , "content_types/" ++ da ++ "/" ++ dm ++ "/render.html" ]

/-- `Content._render_template_paths` (feincmstools/base.py:381-403): for each
ancestor yielded by the hierarchy walker, yield the four candidates. -/
def render_template_paths (klass : CT) (region : String) : List String :=
  (bases_that_are_content_types klass).flatMap (fun base => renderCandidates klass base region)

/-- `Content._admin_template_paths` (feincmstools/base.py:369-374). -/
def admin_template_paths (klass : CT) : List String :=
  (bases_that_are_content_types klass).map (fun base =>
    "content_types/" ++ base.appLabel ++ "/" ++ base.modelName ++ "/admin_init.html")

/-- `Content._detect_template` (feincmstools/base.py:410-421): the template
backend is modelled by the list of paths for which `get_template` succeeds;
the function returns the path if it exists, else `None`. -/
def detect_template (backend : List String) (path : String) : Option String :=
  if path ∈ backend then some path else none

/-- `Content._find_render_template_path` (feincmstools/base.py:405-408):
return the first candidate path detected in the backend. -/
def find_render_template_path (backend : List String) (klass : CT) (region : String) :
    Option String :=
  (render_template_paths klass region).find? (fun p => (detect_template backend p).isSome)

/-- `Content._find_admin_template_path` (feincmstools/base.py:376-379). -/
def find_admin_template_path (backend : List String) (klass : CT) : Option String :=
  (admin_template_paths klass).find? (fun p => (detect_template backend p).isSome)

/-! ## Rendering dispatch (`Content.render`) -/

/-- Python `a or b` on an optional template-path string: `None` and the empty
string are falsy. -/
def pyOr (a b : Option String) : Option String :=
  match a with
  | none => b
  | some s => if s = "" then b else some s

/-- Python `sep.join(l)`. -/
def pyJoin (sep : String) : List String → String
  | [] => ""
  | [x] => x
  | x :: xs => x ++ sep ++ pyJoin sep xs

/-- A content chunk instance as seen by `Content.render` and
`Content.__init__`: its concrete class, its region key, its `__class__.__name__`,
the two template-path instance attributes and the name-mangled
`_Content__templates_initialised` attribute set at base.py:332. -/
structure Chunk where
  klass : CT
  region : String
  className : String
  render_template : Option String := none
  admin_template : Option String := none
  templatesInitialised : Bool := false

/-- The message of the `NotImplementedError` raised by `Content.render`
(feincmstools/base.py:303-308). -/
def noTemplateMsg (c : Chunk) : String :=
  "No template found for rendering " ++ c.className ++ " content. I tried [\"" ++
    pyJoin "\", \"" (render_template_paths c.klass c.region) ++ "\"]."

/-- Outcome of `Content.render`: the `NotImplementedError` for a missing
template, the `KeyError` for a missing `request` kwarg, or delegation to the
external `render_to_string` backend with the resolved template and the
request. -/
inductive RenderResult where
  | errNoTemplate (msg : String)
  | errKeyRequest
  | delegated (template : String) (request : Nat)
deriving DecidableEq

/-- `Content.render` (feincmstools/base.py:300-319): resolve the template
(explicit `render_template` attribute, else path resolution), raise
`NotImplementedError` listing every candidate tried when none resolves, then
fetch the required `request` kwarg (raising `KeyError` when absent), and
finally delegate to `render_to_string`.  Requests are modelled as opaque
numbers. -/
def Content.render (backend : List String) (c : Chunk) (request : Option Nat) :
    RenderResult :=
  match pyOr c.render_template (find_render_template_path backend c.klass c.region) with
  | none => .errNoTemplate (noTemplateMsg c)
  | some template =>
    match request with
    | none => .errKeyRequest
    | some r => .delegated template r

/-- `hasattr(self, '__templates_initialised')` (feincmstools/base.py:323):
the string literal is not subject to Python name mangling, while the
assignment at line 332 (inside `class Content`) mangles
`self.__templates_initialised` to `_Content__templates_initialised`
(`Chunk.templatesInitialised` here).  No code ever sets an attribute under
the unmangled name, so the test is false for every instance. -/
def hasattr_templates_initialised (_ : Chunk) : Bool := false

/-- `Content.__init__` (feincmstools/base.py:321-332): the guard test never
matches the mangled attribute that line 332 sets, so the body runs on every
`__init__`: each template field is re-resolved through Python `or`, keeping
an already-truthy value and otherwise resolving against the current backend;
the mangled flag is then set unconditionally. -/
def Content.init (backend : List String) (c : Chunk) : Chunk :=
  if hasattr_templates_initialised c then { c with templatesInitialised := true }
  else
    { c with
      render_template := pyOr c.render_template (find_render_template_path backend c.klass c.region)
      admin_template := pyOr c.admin_template (find_admin_template_path backend c.klass)
      templatesInitialised := true }

/-! ## The region / content-type registrar (`create_content_types`)

Content-type classes are identified by opaque numbers, extra keyword
arguments by association lists.  The input of the merge loop is
`types_by_regions`: for each region key (in declared region order) the list
of `(category, types)` pairs returned by `content_types_by_region`, where a
type entry may be a bare type or a `(type, kwargs)` pair. -/

/-- Extra keyword arguments passed through to `create_content_type`. -/
abbrev Kwargs := List (String × Nat)

/-- One element of a category's type list: either a bare content type or a
`(type, kwargs)` tuple (feincmstools/models.py:23-25). -/
inductive TypeEntry where
  | plain (t : Nat) : TypeEntry
  | withKw (t : Nat) (kw : Kwargs) : TypeEntry

/-- The content type of an entry (`type = type[0]` for tuples). -/
def TypeEntry.ty : TypeEntry → Nat
  | .plain t => t
  | .withKw t _ => t

/-- The kwargs of an entry (`{}` for bare types, `type[1]` for tuples). -/
def TypeEntry.kwargs : TypeEntry → Kwargs
  | .plain _ => []
  | .withKw _ kw => kw

/-- The registration parameters accumulated for one content type:
`(category, set-of-regions, kwargs)` (feincmstools/models.py:27).  The
region set is a Python `set`; it is modelled as a duplicate-free list. -/
structure TypeParams where
  category : Option String
  regions : List String
  kwargs : Kwargs
deriving DecidableEq

/-- The `types_to_register` `OrderedDict`, as an insertion-ordered
association list. -/
abbrev RegDict := List (Nat × TypeParams)

/-- `type in types_to_register`. -/
def RegDict.containsKey : RegDict → Nat → Bool
  | [], _ => false
  | (k, _) :: rest, t => if k = t then true else RegDict.containsKey rest t

/-- `types_to_register[type]`: first binding for the key. -/
def RegDict.lookup : RegDict → Nat → Option TypeParams
  | [], _ => none
  | (k, v) :: rest, t => if k = t then some v else RegDict.lookup rest t

/-- `set.add`: insert a region into the region set (no-op when present). -/
def addToSet (r : String) (rs : List String) : List String :=
  if r ∈ rs then rs else rs ++ [r]

/-- `types_to_register[type][1].add(region)`: update the (unique) entry for
`t` by adding the region to its region set. -/
def RegDict.addRegion (d : RegDict) (t : Nat) (r : String) : RegDict :=
  d.map (fun p => if p.1 = t then (p.1, { p.2 with regions := addToSet r p.2.regions }) else p)

/-- One declaration encountered by the innermost loop of
`create_content_types`: a region key, a category and a type entry. -/
structure Decl where
  region : String
  category : Option String
  entry : TypeEntry

/-- The body of the innermost loop (feincmstools/models.py:21-28): on first
encounter insert `(category, empty set, kwargs)`, then always add the region
to the type's region set. -/
def registerStep (d : RegDict) (decl : Decl) : RegDict :=
  let t := decl.entry.ty
  let d' := if d.containsKey t then d
            else d ++ [(t, ⟨decl.category, [], decl.entry.kwargs⟩)]
  d'.addRegion t decl.region

/-- The input of the merge: for each region (declared order) the
`(category, types)` groups. -/
abbrev RegionInput := List (String × List (Option String × List TypeEntry))

/-- The declarations in the exact order the three nested loops of
`create_content_types` visit them. -/
def declarations (input : RegionInput) : List Decl :=
  input.flatMap (fun rc =>
    rc.2.flatMap (fun ct => ct.2.map (fun e => ⟨rc.1, ct.1, e⟩)))

/-- The `types_to_register` dict built by the nested loops of
`create_content_types` (feincmstools/models.py:18-28). -/
def types_to_register (input : RegionInput) : RegDict :=
  input.foldl (fun d rc =>
    rc.2.foldl (fun d ct =>
      ct.2.foldl (fun d e => registerStep d ⟨rc.1, ct.1, e⟩) d) d) []

/-! ## Registration and module-namespace exposure -/

/-- Modelled from the spec: `feincmstools/settings.py` is not under `src/`;
`FeinCMSDocument._get_content_type_class_name` documents that the legacy
`"%s%s" % (cls.__name__, content_type.__name__)` naming is the "previous
default retained for backwards compatibility", and the spec fixes the
synthetic module attribute name to `{DocumentClassName}{ContentTypeClassName}`,
so the legacy-table-names setting is modelled as enabled. -/
def USE_LEGACY_TABLE_NAMES : Bool := true

/-- `FeinCMSDocument._get_content_type_class_name`
(feincmstools/base.py:98-123): the concatenated legacy name when the setting
is on, `None` otherwise (falling back to FeinCMS's default). -/
def get_content_type_class_name (docName typeName : String) : Option String :=
  if USE_LEGACY_TABLE_NAMES then some (docName ++ typeName) else none

/-- The dynamic model class returned by FeinCMS `create_content_type`:
its `__name__` and the content type it was created from. -/
structure DynClass where
  name : String
  srcType : Nat
deriving DecidableEq

/-- Modelled from the spec: FeinCMS's `create_content_type` is an external
collaborator not under `src/`; per the docstring of
`_get_content_type_class_name`, passing `class_name=None` makes FeinCMS fall
back to using `content_type.__name__` as the new class's name. -/
def create_content_type (t : Nat) (typeName : String) (class_name : Option String) :
    DynClass :=
  ⟨class_name.getD typeName, t⟩

/-- A Python module namespace: attribute name to bound class, earliest
binding first (`getattr` finds it; `setattr` of a fresh name appends). -/
abbrev ModuleNS := List (String × DynClass)

/-- `hasattr(module, name)`. -/
def ModuleNS.hasAttr (m : ModuleNS) (n : String) : Bool := m.any (fun p => p.1 == n)

/-- `getattr(module, name)`. -/
def ModuleNS.getAttr (m : ModuleNS) (n : String) : Option DynClass := List.lookup n m

/-- The body of the second loop of `create_content_types`
(feincmstools/models.py:30-57) for one registered type: compute the class
name, create the content type, and expose it in the document's module unless
the attribute already exists. -/
def exposeStep (docName : String) (typeName : Nat → String) (m : ModuleNS) (t : Nat) :
    ModuleNS :=
  let class_name := get_content_type_class_name docName (typeName t)
  let nct := create_content_type t (typeName t) class_name
  if m.hasAttr nct.name then m else m ++ [(nct.name, nct)]

/-- The second loop of `create_content_types` over the registry in
first-encounter order, acting on the defining module's namespace. -/
def registerAndExpose (docName : String) (typeName : Nat → String) (registry : RegDict)
    (m : ModuleNS) : ModuleNS :=
  registry.foldl (fun m p => exposeStep docName typeName m p.1) m

/-! ## View-backed content (`ViewContent.render`, models.py:96-112) -/

/-- The value a view returns: an `HttpResponse` (whose `.content` is
extracted) or a raw content string. -/
inductive ViewResponse where
  | http (content : String)
  | raw (content : String)

/-- `getattr(response, 'content', response)` (models.py:111). -/
def ViewResponse.extract : ViewResponse → String
  | .http c => c
  | .raw s => s

/-- `ViewContent.render` (models.py:96-112).  `lookupView` models
`get_view_from_path(self.view)` (result or raised exception, exceptions as
opaque numbers); a successful lookup gives the view, a function of the
optional request (`kwargs.get('request')`) that itself returns a response or
raises.  In non-debug mode either failure becomes a placeholder string; in
debug mode the exception is re-raised. -/
def ViewContent.render (debug : Bool) (lookupView : Except Nat (Option Nat → Except Nat ViewResponse))
    (request : Option Nat) : Except Nat String :=
  match lookupView with
  | .error e => if debug then .error e else .ok "<p>Content could not be found.</p>"
  | .ok view =>
    match view request with
    | .error e => if debug then .error e else .ok "<p>Error rendering content.</p>"
    | .ok response => .ok response.extract

/-! ## Hierarchical document paths -/

/-- A node of the document tree: only its slug matters to `get_path`. -/
structure DocNode where
  slug : String

/-- `HierarchicalFeinCMSDocument.get_path` (feincmstools/base.py:266-270):
`get_ancestors()` is the external tree collaborator, passed as a function;
the path is the slash-join of the slugs of `list(self.get_ancestors()) +
[self]`. -/
def get_path (get_ancestors : DocNode → List DocNode) (n : DocNode) : String :=
  let page_list := get_ancestors n ++ [n]
  pyJoin "/" (page_list.map DocNode.slug)

/-! ## Concrete example hierarchy used by several theorems -/

/-- Example ancestor `A` of a three-level linear hierarchy `A → B → C`. -/
def exA : CT := .cls "app" "amodel" [.content]

/-- Example middle class `B` with direct base `A`. -/
def exB : CT := .cls "app" "bmodel" [exA]

/-- Example concrete class `C` with direct base `B`. -/
def exC : CT := .cls "app" "cmodel" [exB]

/-- Example content type defined in app `appX` with model name `modelY`. -/
def baseXY : CT := .cls "appX" "modelY" [.content]

/-- Example concrete content type in app `appU` / model `modelU` whose
defining base is `baseXY`. -/
def usingUV : CT := .cls "appU" "modelU" [baseXY]

/-- The least specific candidate path for `baseXY`. -/
def fallbackXY : String := "content_types/appX/modelY/render.html"

/-! ## Helper lemmas -/

lemma secondLoop_eq (bs : List CT) :
    bases_that_are_content_types.secondLoop bs =
      (bs.filter goodBase).flatMap bases_that_are_content_types := by
  induction bs with
  | nil => rfl
  | cons b bs ih =>
    by_cases h : goodBase b = true <;>
      simp [bases_that_are_content_types.secondLoop, List.filter_cons, h, ih]

lemma detect_template_isSome (backend : List String) (p : String) :
    (detect_template backend p).isSome = decide (p ∈ backend) := by
  by_cases h : p ∈ backend <;> simp [detect_template, h]

lemma find_render_none (backend : List String) (c : Chunk)
    (h : ∀ p ∈ render_template_paths c.klass c.region, p ∉ backend) :
    find_render_template_path backend c.klass c.region = none := by
  rw [find_render_template_path, List.find?_eq_none]
  intro x hx
  simp only [detect_template_isSome, decide_eq_true_eq]
  exact h x hx

/-- `hay` contains `needle` as a contiguous substring. -/
def strContains (hay needle : String) : Prop :=
  ∃ pre post : List Char, hay.data = pre ++ needle.data ++ post

lemma pyJoin_contains (sep : String) (l : List String) (p : String) (hp : p ∈ l) :
    ∃ pre post : List Char, (pyJoin sep l).data = pre ++ p.data ++ post := by
  induction l with
  | nil => cases hp
  | cons x xs ih =>
    cases xs with
    | nil =>
      rcases List.mem_singleton.mp hp with rfl
      exact ⟨[], [], by simp [pyJoin]⟩
    | cons y ys =>
      rcases List.mem_cons.mp hp with rfl | hmem
      · exact ⟨[], (sep ++ pyJoin sep (y :: ys)).data, by simp [pyJoin]⟩
      · obtain ⟨pre, post, hEq⟩ := ih hmem
        exact ⟨x.data ++ sep.data ++ pre, post, by simp [pyJoin, hEq]⟩

lemma flatMap_renderCandidates_length (klass : CT) (region : String) (l : List CT) :
    (l.flatMap (fun base => renderCandidates klass base region)).length = 4 * l.length := by
  induction l with
  | nil => rfl
  | cons b bs ih =>
    rw [List.flatMap_cons, List.length_append, ih, List.length_cons, Nat.mul_succ]
    have h4 : (renderCandidates klass b region).length = 4 := rfl
    omega

/-! ## Claim theorems -/

/-- C2: for every concrete content-chunk class, the hierarchy walker yields
first every direct base that is a content-chunk type (excluding the abstract
root `Content`), in declared base order, and then, for each such base in the
same order, recursively yields that base's content-chunk ancestors
depth-first; in particular for the 3-level linear hierarchy `A → B → C` the
walker on `C` yields `B` before `A`. -/
theorem bases_walker_spec :
    (∀ (a m : String) (bases : List CT),
        bases_that_are_content_types (.cls a m bases) =
          bases.filter goodBase ++
            (bases.filter goodBase).flatMap bases_that_are_content_types) ∧
    bases_that_are_content_types exC = [exB, exA] := by
  constructor
  · intro a m bases
    simp [bases_that_are_content_types, secondLoop_eq]
  · rfl

/-- C9: `get_path` returns the slash-joined slugs of the node's ancestors as
returned by `get_ancestors()`, in order from the root, followed by the
node's own slug. -/
theorem get_path_spec :
    ∀ (get_ancestors : DocNode → List DocNode) (n : DocNode),
      get_path get_ancestors n =
        pyJoin "/" ((get_ancestors n).map DocNode.slug ++ [n.slug]) := by
  intro ga n
  simp [get_path]

/-- C3: the render-path resolver probes, per ancestor in hierarchy-walker
order, exactly the four candidate patterns in order (most to least specific)
and returns the first candidate existing in the template backend, `None`
when no candidate exists; when only `content_types/appX/modelY/render.html`
exists, resolution for region `"main"` on a chunk defined by
`appX`/`modelY` returns that fallback path. -/
theorem render_path_resolution_spec :
    (∀ (backend : List String) (klass : CT) (region : String),
      (∀ p, find_render_template_path backend klass region = some p ↔
          p ∈ backend ∧ ∃ l₁ l₂,
            render_template_paths klass region = l₁ ++ p :: l₂ ∧
            ∀ q ∈ l₁, q ∉ backend) ∧
      (find_render_template_path backend klass region = none ↔
          ∀ p ∈ render_template_paths klass region, p ∉ backend)) ∧
    render_template_paths usingUV "main" =
      [ "content_types/appX/modelY/appU_modelU_main.html"
      , "content_types/appX/modelY/modelU_main.html"
      , "content_types/appX/modelY/main.html"
      , "content_types/appX/modelY/render.html" ] ∧
    find_render_template_path [fallbackXY] usingUV "main" = some fallbackXY := by
  refine ⟨fun backend klass region => ⟨fun p => ?_, ?_⟩, by rfl, by rfl⟩
  · rw [find_render_template_path, List.find?_eq_some]
    simp only [detect_template_isSome, decide_eq_true_eq, Bool.not_eq_true',
      decide_eq_false_iff_not]
  · rw [find_render_template_path, List.find?_eq_none]
    simp only [detect_template_isSome, decide_eq_true_eq]

/-- Witness for C3: resolution at a concrete backend and chunk class, and
the none-characterisation at the empty backend. -/
theorem render_path_resolution_spec_witness :
    find_render_template_path [fallbackXY] usingUV "main" = some fallbackXY ∧
      (find_render_template_path [] usingUV "main" = none ↔
        ∀ p ∈ render_template_paths usingUV "main", p ∉ ([] : List String)) :=
  ⟨render_path_resolution_spec.2.2, (render_path_resolution_spec.1 [] usingUV "main").2⟩

/-- C5: for every chunk with a resolvable render template, calling `render`
without a `request` kwarg raises the `KeyError` and never delegates to the
external template-rendering backend. -/
theorem render_requires_request_spec :
    ∀ (backend : List String) (c : Chunk) (t : String),
      pyOr c.render_template (find_render_template_path backend c.klass c.region) = some t →
      Content.render backend c none = .errKeyRequest ∧
      ∀ (tmpl : String) (r : Nat), Content.render backend c none ≠ .delegated tmpl r := by
  intro backend c t h
  refine ⟨by simp [Content.render, h], fun tmpl r => by simp [Content.render, h]⟩

/-- Chunk with an explicitly set render template, used as concrete input. -/
def chunkWithTemplate : Chunk :=
  { klass := usingUV, region := "main", className := "UsingUV",
    render_template := some "x.html" }

/-- Witness for C5 at a concrete chunk. -/
theorem render_requires_request_spec_witness :
    Content.render [] chunkWithTemplate none = RenderResult.errKeyRequest :=
  (render_requires_request_spec [] chunkWithTemplate "x.html" (by rfl)).1

/-- Chunk with no explicit template, used as concrete input. -/
def plainChunkUV : Chunk :=
  { klass := usingUV, region := "main", className := "UsingUV" }

/-- C10: when no template resolves and `render` is also called without a
request, the missing-template error is raised, not the `KeyError`: the
template-resolution check precedes the request-argument check. -/
theorem render_error_precedence_spec :
    ∀ (backend : List String) (c : Chunk),
      c.render_template = none →
      (∀ p ∈ render_template_paths c.klass c.region, p ∉ backend) →
      Content.render backend c none = .errNoTemplate (noTemplateMsg c) ∧
      Content.render backend c none ≠ .errKeyRequest := by
  intro backend c h1 h2
  have hf := find_render_none backend c h2
  refine ⟨by simp [Content.render, pyOr, h1, hf], by simp [Content.render, pyOr, h1, hf]⟩

/-- Witness for C10 at a concrete chunk and empty backend. -/
theorem render_error_precedence_spec_witness :
    Content.render [] plainChunkUV none =
        RenderResult.errNoTemplate (noTemplateMsg plainChunkUV) ∧
      Content.render [] plainChunkUV none ≠ RenderResult.errKeyRequest :=
  render_error_precedence_spec [] plainChunkUV rfl (by simp)

/-- C4: when no explicit template is set and zero candidate render templates
exist in the backend, `render` raises the missing-template error, there are
`4 × (ancestor count)` attempted candidate paths, and the error message
contains every one of them. -/
theorem render_missing_template_error_spec :
    ∀ (backend : List String) (c : Chunk) (request : Option Nat),
      c.render_template = none →
      (∀ p ∈ render_template_paths c.klass c.region, p ∉ backend) →
      Content.render backend c request = .errNoTemplate (noTemplateMsg c) ∧
      (render_template_paths c.klass c.region).length =
        4 * (bases_that_are_content_types c.klass).length ∧
      ∀ p ∈ render_template_paths c.klass c.region, strContains (noTemplateMsg c) p := by
  intro backend c request h1 h2
  have hf := find_render_none backend c h2
  refine ⟨by simp [Content.render, pyOr, h1, hf], ?_, ?_⟩
  · rw [render_template_paths]
    exact flatMap_renderCandidates_length c.klass c.region _
  · intro p hp
    obtain ⟨pre, post, hEq⟩ := pyJoin_contains "\", \"" _ p hp
    refine ⟨("No template found for rendering " ++ c.className ++
        " content. I tried [\"").data ++ pre, post ++ "\"].".data, ?_⟩
    simp [noTemplateMsg, hEq]

/-- Witness for C4 at a concrete chunk and empty backend. -/
theorem render_missing_template_error_spec_witness :
    plainChunkUV.render_template = none ∧
      Content.render [] plainChunkUV none =
        RenderResult.errNoTemplate (noTemplateMsg plainChunkUV) ∧
      (render_template_paths plainChunkUV.klass plainChunkUV.region).length =
        4 * (bases_that_are_content_types plainChunkUV.klass).length ∧
      ∀ p ∈ render_template_paths plainChunkUV.klass plainChunkUV.region,
        strContains (noTemplateMsg plainChunkUV) p :=
  ⟨rfl, (render_missing_template_error_spec [] plainChunkUV none rfl (by simp)).1,
    (render_missing_template_error_spec [] plainChunkUV none rfl (by simp)).2.1,
    (render_missing_template_error_spec [] plainChunkUV none rfl (by simp)).2.2⟩

/-- C7: for a view-backed chunk whose view lookup or view call raises,
`render` returns the user-facing placeholder string in non-debug mode and
re-raises the exception unchanged in debug mode. -/
theorem view_content_error_policy_spec :
    ∀ (e : Nat) (view : Option Nat → Except Nat ViewResponse) (request : Option Nat),
      (ViewContent.render true (.error e) request = .error e ∧
        ViewContent.render false (.error e) request =
          .ok "<p>Content could not be found.</p>") ∧
      (view request = .error e →
        ViewContent.render true (.ok view) request = .error e ∧
        ViewContent.render false (.ok view) request =
          .ok "<p>Error rendering content.</p>") := by
  intro e view request
  exact ⟨⟨rfl, rfl⟩, fun h => ⟨by simp [ViewContent.render, h], by simp [ViewContent.render, h]⟩⟩

/-- Witness for C7 at concrete exceptions and a concrete failing view. -/
theorem view_content_error_policy_spec_witness :
    ViewContent.render true (.error 5) none = Except.error 5 ∧
      ViewContent.render false (.error 5) none =
        Except.ok "<p>Content could not be found.</p>" ∧
      ViewContent.render true (.ok fun _ => Except.error 7) none = Except.error 7 ∧
      ViewContent.render false (.ok fun _ => Except.error 7) none =
        Except.ok "<p>Error rendering content.</p>" :=
  ⟨(view_content_error_policy_spec 5 (fun _ => Except.error 7) none).1.1,
    (view_content_error_policy_spec 5 (fun _ => Except.error 7) none).1.2,
    ((view_content_error_policy_spec 7 (fun _ => Except.error 7) none).2 rfl).1,
    ((view_content_error_policy_spec 7 (fun _ => Except.error 7) none).2 rfl).2⟩

/-- Modelled from the spec: the claim's lazy-on-first-access semantics for
the render-path field — nothing is computed at initialisation and the first
access computes the path from the template backend current at access time. -/
def lazyFirstAccessRenderPath (backendAtAccess : List String) (c : Chunk) : Option String :=
  pyOr c.render_template (find_render_template_path backendAtAccess c.klass c.region)

/-- C8 counterexample: the render-path field is already computed right after
`__init__` with zero accesses (so it is eager, not lazy), and its value is
fixed by the backend at initialisation time: a chunk initialised while
`content_types/appX/modelY/render.html` exists holds that path even though a
first access computed against an emptied backend would yield `None`. -/
theorem template_fields_not_lazy_counterexample :
    (Content.init [fallbackXY] plainChunkUV).render_template = some fallbackXY ∧
      lazyFirstAccessRenderPath [] plainChunkUV = none ∧
      some fallbackXY ≠ (none : Option String) :=
  ⟨rfl, rfl, by simp⟩

/-- C8 (amended): the render-path and admin-path fields are computed eagerly
during `__init__`, not lazily on first access; the `__templates_initialised`
guard never fires (the `hasattr` test uses the unmangled name while the
name-mangled attribute is set), so every `__init__` re-runs resolution: a
field already holding a non-empty value is kept unchanged by the Python `or`
— once resolved it is not recomputed even if the backend changes — while a
still-unset field is re-resolved against the backend current at that
`__init__`. -/
theorem template_fields_init_resolution_spec :
    ∀ (backend b2 : List String) (c : Chunk),
      (Content.init backend c).render_template =
        pyOr c.render_template (find_render_template_path backend c.klass c.region) ∧
      (Content.init backend c).admin_template =
        pyOr c.admin_template (find_admin_template_path backend c.klass) ∧
      (Content.init backend c).templatesInitialised = true ∧
      (∀ t, t ≠ "" → c.render_template = some t →
        (Content.init b2 (Content.init backend c)).render_template = some t) ∧
      (c.render_template = none →
        (Content.init b2 (Content.init backend c)).render_template =
          pyOr (find_render_template_path backend c.klass c.region)
            (find_render_template_path b2 c.klass c.region)) := by
  intro backend b2 c
  refine ⟨rfl, rfl, rfl, ?_, ?_⟩
  · intro t ht hrt
    show pyOr (Content.init backend c).render_template
        (find_render_template_path b2 (Content.init backend c).klass
          (Content.init backend c).region) = some t
    have h1 : (Content.init backend c).render_template = some t := by
      show pyOr c.render_template
          (find_render_template_path backend c.klass c.region) = some t
      rw [hrt]
      simp [pyOr, ht]
    rw [h1]
    simp [pyOr, ht]
  · intro h
    show pyOr (Content.init backend c).render_template
        (find_render_template_path b2 (Content.init backend c).klass
          (Content.init backend c).region) = _
    have h1 : (Content.init backend c).render_template =
        find_render_template_path backend c.klass c.region := by
      show pyOr c.render_template
          (find_render_template_path backend c.klass c.region) = _
      rw [h]
      rfl
    rw [h1]
    rfl

/-- Witness for C8's amended statement: a chunk left unresolved by an
`__init__` against the empty backend is re-resolved by a second `__init__`
after the fallback template appears, while an explicitly set template
survives both initialisations. -/
theorem template_fields_init_resolution_spec_witness :
    (Content.init [] plainChunkUV).render_template = none ∧
      (Content.init [fallbackXY] (Content.init [] plainChunkUV)).render_template =
        some fallbackXY ∧
      (Content.init [fallbackXY] (Content.init [] chunkWithTemplate)).render_template =
        some "x.html" :=
  ⟨(template_fields_init_resolution_spec [] [fallbackXY] plainChunkUV).1.trans rfl,
    ((template_fields_init_resolution_spec [] [fallbackXY] plainChunkUV).2.2.2.2
      rfl).trans rfl,
    (template_fields_init_resolution_spec [] [fallbackXY] chunkWithTemplate).2.2.2.1
      "x.html" (by decide) rfl⟩

lemma exposeStep_eq (docName : String) (typeName : Nat → String) (m : ModuleNS) (t : Nat) :
    exposeStep docName typeName m t =
      if m.hasAttr (docName ++ typeName t) then m
      else m ++ [(docName ++ typeName t, ⟨docName ++ typeName t, t⟩)] := rfl

lemma exposeStep_getAttr_mono (docName : String) (typeName : Nat → String)
    (m : ModuleNS) (t : Nat) (name : String) (v : DynClass)
    (h : m.getAttr name = some v) :
    (exposeStep docName typeName m t).getAttr name = some v := by
  rw [exposeStep_eq]
  split
  · exact h
  · show List.lookup name (m ++ _) = some v
    rw [List.lookup_append]
    simp [ModuleNS.getAttr] at h
    simp [h]

lemma exposeStep_hasAttr_mono (docName : String) (typeName : Nat → String)
    (m : ModuleNS) (t : Nat) (name : String)
    (h : m.hasAttr name = true) :
    (exposeStep docName typeName m t).hasAttr name = true := by
  rw [exposeStep_eq]
  split
  · exact h
  · simp [ModuleNS.hasAttr] at h ⊢
    tauto

lemma exposeStep_hasAttr_self (docName : String) (typeName : Nat → String)
    (m : ModuleNS) (t : Nat) :
    (exposeStep docName typeName m t).hasAttr (docName ++ typeName t) = true := by
  rw [exposeStep_eq]
  split
  · assumption
  · simp [ModuleNS.hasAttr]

lemma registerAndExpose_getAttr_mono (docName : String) (typeName : Nat → String)
    (registry : RegDict) (m : ModuleNS) (name : String) (v : DynClass)
    (h : m.getAttr name = some v) :
    (registerAndExpose docName typeName registry m).getAttr name = some v := by
  induction registry generalizing m with
  | nil => exact h
  | cons p rest ih =>
    exact ih (exposeStep docName typeName m p.1)
      (exposeStep_getAttr_mono docName typeName m p.1 name v h)

lemma registerAndExpose_hasAttr_mono (docName : String) (typeName : Nat → String)
    (registry : RegDict) (m : ModuleNS) (name : String)
    (h : m.hasAttr name = true) :
    (registerAndExpose docName typeName registry m).hasAttr name = true := by
  induction registry generalizing m with
  | nil => exact h
  | cons p rest ih =>
    exact ih (exposeStep docName typeName m p.1)
      (exposeStep_hasAttr_mono docName typeName m p.1 name h)

/-- C6: the registrar exposes each newly created dynamic class in the module
defining the Document subclass under the synthetic name
`{DocumentClassName}{ContentTypeClassName}` (one exposure step appends
exactly that binding when the attribute is absent and is the identity when
it already exists — a silent no-op, not an error); the whole registration
loop never overwrites an existing module binding, and after it every
registered content type's synthetic attribute exists. -/
theorem module_exposure_spec :
    (∀ (docName : String) (typeName : Nat → String) (m : ModuleNS) (t : Nat),
        exposeStep docName typeName m t =
          if m.hasAttr (docName ++ typeName t) then m
          else m ++ [(docName ++ typeName t, ⟨docName ++ typeName t, t⟩)]) ∧
    (∀ (docName : String) (typeName : Nat → String) (registry : RegDict)
        (m : ModuleNS) (name : String) (v : DynClass),
        m.getAttr name = some v →
        (registerAndExpose docName typeName registry m).getAttr name = some v) ∧
    (∀ (docName : String) (typeName : Nat → String) (registry : RegDict)
        (m : ModuleNS) (t : Nat) (p : TypeParams),
        (t, p) ∈ registry →
        (registerAndExpose docName typeName registry m).hasAttr
          (docName ++ typeName t) = true) := by
  refine ⟨exposeStep_eq, registerAndExpose_getAttr_mono, ?_⟩
  intro docName typeName registry m t p hmem
  induction registry generalizing m with
  | nil => cases hmem
  | cons q rest ih =>
    rcases List.mem_cons.mp hmem with rfl | hmem'
    · exact registerAndExpose_hasAttr_mono docName typeName rest _ _
        (exposeStep_hasAttr_self docName typeName m t)
    · exact ih (exposeStep docName typeName m q.1) hmem'

/-- A pre-existing module binding used as concrete input. -/
def preBound : DynClass := ⟨"DocAlpha", 99⟩

/-- Witness for C6: one fresh exposure, one no-op exposure against an
existing binding, preservation of the existing binding through the loop,
and presence of the synthetic attribute afterwards. -/
theorem module_exposure_spec_witness :
    exposeStep "Doc" (fun _ => "Alpha") [] 1 =
        [("DocAlpha", ⟨"DocAlpha", 1⟩)] ∧
      exposeStep "Doc" (fun _ => "Alpha") [("DocAlpha", preBound)] 1 =
        [("DocAlpha", preBound)] ∧
      (registerAndExpose "Doc" (fun _ => "Alpha") [(1, ⟨none, ["main"], []⟩)]
          [("DocAlpha", preBound)]).getAttr "DocAlpha" = some preBound ∧
      (registerAndExpose "Doc" (fun _ => "Alpha") [(1, ⟨none, ["main"], []⟩)]
          []).hasAttr "DocAlpha" = true := by
  refine ⟨?_, ?_, ?_, ?_⟩
  · rw [module_exposure_spec.1 "Doc" (fun _ => "Alpha") [] 1]
    rfl
  · rw [module_exposure_spec.1 "Doc" (fun _ => "Alpha") [("DocAlpha", preBound)] 1]
    rfl
  · exact module_exposure_spec.2.1 "Doc" (fun _ => "Alpha") [(1, ⟨none, ["main"], []⟩)]
      [("DocAlpha", preBound)] "DocAlpha" preBound rfl
  · exact module_exposure_spec.2.2 "Doc" (fun _ => "Alpha") [(1, ⟨none, ["main"], []⟩)]
      [] 1 ⟨none, ["main"], []⟩ (List.mem_singleton.mpr rfl)

/-! ## Registrar merge lemmas -/

/-- The keys of the registry, in insertion order. -/
def RegDict.keys (d : RegDict) : List Nat := d.map Prod.fst

lemma addRegion_keys (d : RegDict) (t : Nat) (r : String) :
    (d.addRegion t r).keys = d.keys := by
  induction d with
  | nil => rfl
  | cons hd rest ih =>
    obtain ⟨k, v⟩ := hd
    by_cases h : k = t <;>
      simp [RegDict.addRegion, RegDict.keys, h] at ih ⊢ <;> exact ih

lemma containsKey_iff (d : RegDict) (t : Nat) :
    d.containsKey t = true ↔ t ∈ d.keys := by
  induction d with
  | nil => simp [RegDict.containsKey, RegDict.keys]
  | cons hd rest ih =>
    obtain ⟨k, v⟩ := hd
    by_cases h : k = t
    · subst h
      simp [RegDict.containsKey, RegDict.keys]
    · have h2 : ¬ t = k := fun he => h he.symm
      simp [RegDict.containsKey, RegDict.keys, h, h2, ih]

lemma registerStep_keys (d : RegDict) (decl : Decl) :
    (registerStep d decl).keys =
      if d.containsKey decl.entry.ty then d.keys else d.keys ++ [decl.entry.ty] := by
  rw [registerStep]
  by_cases h : d.containsKey decl.entry.ty
  · simp only [h, if_true, addRegion_keys]
  · simp only [h, Bool.false_eq_true, if_false, addRegion_keys]
    simp [RegDict.keys]

lemma lookup_addRegion (d : RegDict) (t t' : Nat) (r : String) :
    (d.addRegion t r).lookup t' =
      (d.lookup t').map
        (fun p => if t = t' then { p with regions := addToSet r p.regions } else p) := by
  induction d with
  | nil => rfl
  | cons hd rest ih =>
    obtain ⟨k, v⟩ := hd
    have hcons : RegDict.addRegion ((k, v) :: rest) t r =
        (if k = t then (k, { v with regions := addToSet r v.regions }) else (k, v)) ::
          RegDict.addRegion rest t r := rfl
    rw [hcons]
    by_cases hk : k = t
    · rw [if_pos hk]
      by_cases ht : k = t'
      · subst ht
        rw [show RegDict.lookup ((k, { v with regions := addToSet r v.regions }) ::
              RegDict.addRegion rest t r) k = some { v with regions := addToSet r v.regions }
            from by simp [RegDict.lookup]]
        rw [show RegDict.lookup ((k, v) :: rest) k = some v from by simp [RegDict.lookup]]
        simp [hk]
      · rw [show RegDict.lookup ((k, { v with regions := addToSet r v.regions }) ::
              RegDict.addRegion rest t r) t' = (RegDict.addRegion rest t r).lookup t'
            from by simp [RegDict.lookup, ht]]
        rw [show RegDict.lookup ((k, v) :: rest) t' = RegDict.lookup rest t'
            from by simp [RegDict.lookup, ht]]
        exact ih
    · rw [if_neg hk]
      by_cases ht : k = t'
      · subst ht
        rw [show RegDict.lookup ((k, v) :: RegDict.addRegion rest t r) k = some v
            from by simp [RegDict.lookup]]
        rw [show RegDict.lookup ((k, v) :: rest) k = some v from by simp [RegDict.lookup]]
        have hne : ¬ t = k := fun he => hk he.symm
        simp [hne]
      · rw [show RegDict.lookup ((k, v) :: RegDict.addRegion rest t r) t' =
              (RegDict.addRegion rest t r).lookup t' from by simp [RegDict.lookup, ht]]
        rw [show RegDict.lookup ((k, v) :: rest) t' = RegDict.lookup rest t'
            from by simp [RegDict.lookup, ht]]
        exact ih

lemma containsKey_eq_isSome (d : RegDict) (t : Nat) :
    d.containsKey t = (d.lookup t).isSome := by
  induction d with
  | nil => rfl
  | cons hd rest ih =>
    obtain ⟨k, v⟩ := hd
    by_cases h : k = t <;> simp [RegDict.containsKey, RegDict.lookup, h, ih]

lemma regLookup_append (d1 d2 : RegDict) (t : Nat) :
    RegDict.lookup (d1 ++ d2) t = (d1.lookup t).or (d2.lookup t) := by
  induction d1 with
  | nil => simp [RegDict.lookup]
  | cons hd rest ih =>
    obtain ⟨k, v⟩ := hd
    by_cases h : k = t <;> simp [RegDict.lookup, h, ih]

lemma registerStep_lookup (d : RegDict) (decl : Decl) (t : Nat) :
    (registerStep d decl).lookup t =
      match d.lookup t with
      | some p =>
          some (if decl.entry.ty = t
                then { p with regions := addToSet decl.region p.regions } else p)
      | none =>
          if decl.entry.ty = t
          then some ⟨decl.category, [decl.region], decl.entry.kwargs⟩ else none := by
  rw [registerStep]
  by_cases hc : d.containsKey decl.entry.ty
  · simp only [hc, if_true, lookup_addRegion]
    cases hl : d.lookup t with
    | some p => rfl
    | none =>
      by_cases hty : decl.entry.ty = t
      · subst hty
        rw [containsKey_eq_isSome, hl] at hc
        cases hc
      · simp [hty]
  · simp only [hc, Bool.false_eq_true, if_false, lookup_addRegion, regLookup_append]
    cases hl : d.lookup t with
    | some p => rfl
    | none =>
      by_cases hty : decl.entry.ty = t
      · subst hty
        simp [RegDict.lookup, addToSet]
      · simp [RegDict.lookup, hty, Ne.symm hty]

lemma registerStep_mem_keys (d : RegDict) (decl : Decl) (t : Nat) :
    t ∈ (registerStep d decl).keys ↔ t ∈ d.keys ∨ decl.entry.ty = t := by
  rw [registerStep_keys]
  by_cases h : d.containsKey decl.entry.ty
  · rw [if_pos h]
    exact ⟨Or.inl, fun hh => hh.elim id (fun he => he ▸ (containsKey_iff d _).mp h)⟩
  · rw [if_neg h]
    simp [List.mem_append, eq_comm]

lemma foldl_registerStep_mem_keys (l : List Decl) (d : RegDict) (t : Nat) :
    t ∈ (l.foldl registerStep d).keys ↔ t ∈ d.keys ∨ ∃ dd ∈ l, dd.entry.ty = t := by
  induction l generalizing d with
  | nil => simp
  | cons dd l' ih =>
    rw [List.foldl_cons, ih, registerStep_mem_keys]
    constructor
    · rintro ((hm | he) | ⟨dd', hdd', he⟩)
      · exact Or.inl hm
      · exact Or.inr ⟨dd, List.mem_cons_self _ _, he⟩
      · exact Or.inr ⟨dd', List.mem_cons_of_mem _ hdd', he⟩
    · rintro (hm | ⟨dd', hdd', he⟩)
      · exact Or.inl (Or.inl hm)
      · rcases List.mem_cons.mp hdd' with rfl | hmem
        · exact Or.inl (Or.inr he)
        · exact Or.inr ⟨dd', hmem, he⟩

lemma foldl_registerStep_keys_nodup (l : List Decl) (d : RegDict) (h : d.keys.Nodup) :
    ((l.foldl registerStep d).keys).Nodup := by
  induction l generalizing d with
  | nil => exact h
  | cons dd l' ih =>
    rw [List.foldl_cons]
    apply ih
    rw [registerStep_keys]
    by_cases hc : d.containsKey dd.entry.ty
    · rw [if_pos hc]
      exact h
    · rw [if_neg hc]
      have hnm : dd.entry.ty ∉ d.keys := fun hm => hc ((containsKey_iff d _).mpr hm)
      exact h.append (List.nodup_singleton _)
        (fun x hx hy => hnm ((List.mem_singleton.mp hy) ▸ hx))

lemma mem_addToSet (x r : String) (rs : List String) :
    x ∈ addToSet r rs ↔ x ∈ rs ∨ x = r := by
  by_cases h : r ∈ rs
  · rw [addToSet, if_pos h]
    exact ⟨Or.inl, fun hh => hh.elim id (fun he => he ▸ h)⟩
  · rw [addToSet, if_neg h]
    simp

lemma addToSet_nil (r : String) : addToSet r [] = [r] := by
  simp [addToSet]

lemma mem_foldl_addToSet (l : List Decl) (rs₀ : List String) (r : String) :
    r ∈ l.foldl (fun rs dd => addToSet dd.region rs) rs₀ ↔
      r ∈ rs₀ ∨ ∃ dd ∈ l, dd.region = r := by
  induction l generalizing rs₀ with
  | nil => simp
  | cons dd l' ih =>
    rw [List.foldl_cons, ih, mem_addToSet]
    constructor
    · rintro ((hm | he) | ⟨dd', h1, h2⟩)
      · exact Or.inl hm
      · exact Or.inr ⟨dd, List.mem_cons_self _ _, he.symm⟩
      · exact Or.inr ⟨dd', List.mem_cons_of_mem _ h1, h2⟩
    · rintro (hm | ⟨dd', h1, h2⟩)
      · exact Or.inl (Or.inl hm)
      · rcases List.mem_cons.mp h1 with rfl | hmem
        · exact Or.inl (Or.inr h2.symm)
        · exact Or.inr ⟨dd', hmem, h2⟩

lemma foldl_registerStep_lookup (l : List Decl) (d : RegDict) (t : Nat) :
    (l.foldl registerStep d).lookup t =
      match d.lookup t with
      | some p => some ⟨p.category,
          (l.filter (fun dd => dd.entry.ty == t)).foldl
            (fun rs dd => addToSet dd.region rs) p.regions,
          p.kwargs⟩
      | none =>
        match l.find? (fun dd => dd.entry.ty == t) with
        | none => none
        | some d₀ => some ⟨d₀.category,
            (l.filter (fun dd => dd.entry.ty == t)).foldl
              (fun rs dd => addToSet dd.region rs) [],
            d₀.entry.kwargs⟩ := by
  induction l generalizing d with
  | nil =>
    cases hl : d.lookup t with
    | none => simp [hl]
    | some p => simp [hl]
  | cons dd l' ih =>
    have hstep := registerStep_lookup d dd t
    by_cases hty : dd.entry.ty = t
    · have hb : (dd.entry.ty == t) = true := beq_iff_eq.mpr hty
      cases hl : d.lookup t with
      | some p =>
        rw [hl] at hstep
        dsimp only at hstep
        rw [if_pos hty] at hstep
        rw [List.foldl_cons, ih, hstep]
        dsimp only
        rw [@List.filter_cons_of_pos Decl (fun dd => dd.entry.ty == t) dd l' hb,
          List.foldl_cons]
      | none =>
        rw [hl] at hstep
        dsimp only at hstep
        rw [if_pos hty] at hstep
        rw [List.foldl_cons, ih, hstep]
        dsimp only
        rw [@List.filter_cons_of_pos Decl (fun dd => dd.entry.ty == t) dd l' hb,
          @List.find?_cons_of_pos Decl (fun dd => dd.entry.ty == t) dd l' hb]
        dsimp only
        rw [List.foldl_cons, addToSet_nil]
    · have hb : (dd.entry.ty == t) = false := by simpa using hty
      cases hl : d.lookup t with
      | some p =>
        rw [hl] at hstep
        dsimp only at hstep
        rw [if_neg hty] at hstep
        rw [List.foldl_cons, ih, hstep]
        dsimp only
        rw [@List.filter_cons_of_neg Decl (fun dd => dd.entry.ty == t) dd l' (by simp [hb])]
      | none =>
        rw [hl] at hstep
        dsimp only at hstep
        rw [if_neg hty] at hstep
        rw [List.foldl_cons, ih, hstep]
        dsimp only
        rw [@List.filter_cons_of_neg Decl (fun dd => dd.entry.ty == t) dd l' (by simp [hb]),
          @List.find?_cons_of_neg Decl (fun dd => dd.entry.ty == t) dd l' (by simp [hb])]

lemma foldl_flatMap {α β γ : Type} (l : List α) (f : α → List β) (g : γ → β → γ) (b : γ) :
    (l.flatMap f).foldl g b = l.foldl (fun acc a => (f a).foldl g acc) b := by
  induction l generalizing b with
  | nil => rfl
  | cons x xs ih => simp [List.flatMap_cons, List.foldl_append, ih]

lemma types_to_register_eq_foldl (input : RegionInput) :
    types_to_register input = (declarations input).foldl registerStep [] := by
  suffices h : ∀ (inp : RegionInput) (d : RegDict),
      inp.foldl (fun d rc =>
          rc.2.foldl (fun d ct =>
            ct.2.foldl (fun d e => registerStep d ⟨rc.1, ct.1, e⟩) d) d) d =
        (declarations inp).foldl registerStep d from h input []
  intro inp
  induction inp with
  | nil => intro d; rfl
  | cons rc rest ih =>
    intro d
    rw [List.foldl_cons, ih]
    have hhd : rc.2.foldl (fun d ct =>
          ct.2.foldl (fun d e => registerStep d ⟨rc.1, ct.1, e⟩) d) d =
        (rc.2.flatMap fun ct => ct.2.map fun e => (⟨rc.1, ct.1, e⟩ : Decl)).foldl
          registerStep d := by
      rw [foldl_flatMap]
      congr 1
      funext acc ct
      rw [List.foldl_map]
    have hrhs : declarations (rc :: rest) =
        (rc.2.flatMap fun ct => ct.2.map fun e => (⟨rc.1, ct.1, e⟩ : Decl)) ++
          declarations rest := by
      rw [declarations, List.flatMap_cons]
      rfl
    rw [hrhs, List.foldl_append, hhd]

/-- The content types named by the declarations, in visit order. -/
def declaredTypes (input : RegionInput) : List Nat :=
  (declarations input).map (fun dd => dd.entry.ty)

/-- C1: the merged registry contains each declared content type exactly once
regardless of how many regions declare it; a registered type's region set
holds exactly the regions that declared it; and its category and extra
kwargs are those of its first-encountered declaration, never overwritten by
later declarations. -/
theorem create_content_types_registry_spec :
    ∀ (input : RegionInput) (t : Nat),
      ((types_to_register input).keys.count t =
        if t ∈ declaredTypes input then 1 else 0) ∧
      (∀ p, (types_to_register input).lookup t = some p →
        ∀ r, r ∈ p.regions ↔
          ∃ dd ∈ declarations input, dd.entry.ty = t ∧ dd.region = r) ∧
      (∀ d₀, (declarations input).find? (fun dd => dd.entry.ty == t) = some d₀ →
        ∃ p, (types_to_register input).lookup t = some p ∧
          p.category = d₀.category ∧ p.kwargs = d₀.entry.kwargs) := by
  intro input t
  have hreg := types_to_register_eq_foldl input
  have hlook := foldl_registerStep_lookup (declarations input) [] t
  dsimp only [RegDict.lookup] at hlook
  refine ⟨?_, ?_, ?_⟩
  · have hnodup : ((declarations input).foldl registerStep []).keys.Nodup :=
      foldl_registerStep_keys_nodup _ [] (by simp [RegDict.keys])
    have hmem : t ∈ ((declarations input).foldl registerStep []).keys ↔
        t ∈ declaredTypes input := by
      rw [foldl_registerStep_mem_keys]
      simp [RegDict.keys, declaredTypes, List.mem_map, eq_comm]
    rw [hreg]
    by_cases hin : t ∈ declaredTypes input
    · rw [if_pos hin]
      exact List.count_eq_one_of_mem hnodup (hmem.mpr hin)
    · rw [if_neg hin]
      exact List.count_eq_zero_of_not_mem (fun hc => hin (hmem.mp hc))
  · intro p hp r
    rw [hreg, hlook] at hp
    cases hfind : (declarations input).find? (fun dd => dd.entry.ty == t) with
    | none =>
      rw [hfind] at hp
      cases hp
    | some d₀ =>
      rw [hfind] at hp
      dsimp only at hp
      have hpe := (Option.some.inj hp).symm
      subst hpe
      dsimp only
      rw [mem_foldl_addToSet]
      simp only [List.not_mem_nil, false_or, List.mem_filter, beq_iff_eq]
      constructor
      · rintro ⟨dd, ⟨h1, h2⟩, h3⟩
        exact ⟨dd, h1, h2, h3⟩
      · rintro ⟨dd, h1, h2, h3⟩
        exact ⟨dd, ⟨h1, h2⟩, h3⟩
  · intro d₀ hfind
    rw [hreg, hlook, hfind]
    dsimp only
    exact ⟨_, rfl, rfl, rfl⟩

/-- Concrete region input: type 1 declared in two regions (category from the
first), type 2 declared once with kwargs. -/
def c1input : RegionInput :=
  [("main", [(some "cat", [TypeEntry.plain 1])]),
   ("side", [(none, [TypeEntry.plain 1, TypeEntry.withKw 2 [("k", 3)]])])]

/-- Witness for C1 at a concrete two-region input. -/
theorem create_content_types_registry_spec_witness :
    ((types_to_register c1input).keys.count 1 =
      if 1 ∈ declaredTypes c1input then 1 else 0) ∧
      ("side" ∈ (⟨some "cat", ["main", "side"], []⟩ : TypeParams).regions ↔
        ∃ dd ∈ declarations c1input, dd.entry.ty = 1 ∧ dd.region = "side") ∧
      (∃ p, (types_to_register c1input).lookup 1 = some p ∧
        p.category = some "cat" ∧ p.kwargs = []) :=
  ⟨(create_content_types_registry_spec c1input 1).1,
    (create_content_types_registry_spec c1input 1).2.1
      ⟨some "cat", ["main", "side"], []⟩ (by rfl) "side",
    (create_content_types_registry_spec c1input 1).2.2
      ⟨"main", some "cat", TypeEntry.plain 1⟩ (by rfl)⟩

end Feincmstools
